import Mathlib

/-
Verification of the proximity-analysis pipeline of src/app.py (Oklahoma
County well proximity portal).  The geometric core is embedded over exact
rationals: points and polygon rings carry rational coordinates, the
point-in-polygon test models the shapely `contains` predicate (interior
membership, boundary excluded), and point-to-polygon distance is the
minimum over the ring edges of the point-to-segment distance.  The final
reported distance follows the source: `round(distance, 2)` applied to the
Euclidean distance, modelled as half-even rounding at two decimals over
the reals.
-/

set_option maxHeartbeats 1000000

namespace WellProximity

/-- A planar point with exact rational coordinates (the working plane of
`calculate_distances` after reprojection). -/
structure Pt where
  x : ℚ
  y : ℚ
  deriving DecidableEq, Repr

/-- A polygon ring: the ordered list of vertices, closed implicitly
(the last vertex connects back to the first). -/
abbrev Poly := List Pt

/-- The edges of a ring: consecutive vertex pairs, wrapping around. -/
def edges (r : Poly) : List (Pt × Pt) :=
  r.zip (r.drop 1 ++ r.take 1)

/-- Whether `p` lies exactly on the closed segment from `a` to `b`:
collinear with the endpoints and inside their bounding box. -/
def OnSeg (a b p : Pt) : Prop :=
  (b.x - a.x) * (p.y - a.y) = (b.y - a.y) * (p.x - a.x) ∧
  min a.x b.x ≤ p.x ∧ p.x ≤ max a.x b.x ∧
  min a.y b.y ≤ p.y ∧ p.y ≤ max a.y b.y

instance (a b p : Pt) : Decidable (OnSeg a b p) := by
  unfold OnSeg; infer_instance

/-- Whether the horizontal ray from `p` to the left crosses the edge
`a`-`b` (standard even-odd ray casting step, half-open in `y` so that a
shared vertex is counted once). -/
def CrossesRay (a b p : Pt) : Prop :=
  Xor' (p.y < a.y) (p.y < b.y) ∧
  p.x < a.x + (p.y - a.y) * (b.x - a.x) / (b.y - a.y)

instance (a b p : Pt) : Decidable (CrossesRay a b p) := by
  unfold CrossesRay Xor'; infer_instance

/-- Whether `p` lies on the boundary of the ring `r`. -/
def OnBoundary (r : Poly) (p : Pt) : Prop :=
  ∃ e ∈ edges r, OnSeg e.1 e.2 p

instance (r : Poly) (p : Pt) : Decidable (OnBoundary r p) := by
  unfold OnBoundary; infer_instance

/-- How many edges of the list the leftward ray from `p` crosses. -/
def crossCount (p : Pt) : List (Pt × Pt) → ℕ
  | [] => 0
  | e :: es => (if CrossesRay e.1 e.2 p then 1 else 0) + crossCount p es

/-- Even-odd parity of the ray crossings against the ring `r`. -/
def OddCrossings (r : Poly) (p : Pt) : Prop :=
  crossCount p (edges r) % 2 = 1

instance (r : Poly) (p : Pt) : Decidable (OddCrossings r p) := by
  unfold OddCrossings; infer_instance

/-- The shapely `contains` predicate for a simple ring: `p` lies in the
interior (a boundary point is not contained). -/
def ContainsPoint (r : Poly) (p : Pt) : Prop :=
  ¬ OnBoundary r p ∧ OddCrossings r p

instance (r : Poly) (p : Pt) : Decidable (ContainsPoint r p) := by
  unfold ContainsPoint; infer_instance

/-- Clamp a parameter into the unit interval. -/
def clamp01 (t : ℚ) : ℚ := max 0 (min 1 t)

/-- Squared Euclidean distance from `p` to the closed segment `a`-`b`:
the distance to the orthogonal projection clamped into the segment. -/
def distSqSeg (a b p : Pt) : ℚ :=
  if (b.x - a.x) ^ 2 + (b.y - a.y) ^ 2 = 0 then
    (p.x - a.x) ^ 2 + (p.y - a.y) ^ 2
  else
    (p.x - (a.x + clamp01 (((p.x - a.x) * (b.x - a.x) + (p.y - a.y) * (b.y - a.y)) /
        ((b.x - a.x) ^ 2 + (b.y - a.y) ^ 2)) * (b.x - a.x))) ^ 2 +
    (p.y - (a.y + clamp01 (((p.x - a.x) * (b.x - a.x) + (p.y - a.y) * (b.y - a.y)) /
        ((b.x - a.x) ^ 2 + (b.y - a.y) ^ 2)) * (b.y - a.y))) ^ 2

/-- Minimum of a list of rationals, `0` for the empty list (which the
pipeline never produces). -/
def minOf (l : List ℚ) : ℚ :=
  match l with
  | [] => 0
  | q :: qs => qs.foldl min q

/-- Squared distance from `p` to the boundary of the ring `r`. -/
def distSqPoly (r : Poly) (p : Pt) : ℚ :=
  minOf ((edges r).map (fun e => distSqSeg e.1 e.2 p))

/-- Containment in the union of the property features (line 107 of
src/app.py takes `unary_union` of all features; for the non-overlapping
feature rings of a boundary file the union contains a point exactly when
some feature does). -/
def InsideUnion (props : List Poly) (p : Pt) : Prop :=
  ∃ r ∈ props, ContainsPoint r p

instance (props : List Poly) (p : Pt) : Decidable (InsideUnion props p) := by
  unfold InsideUnion; infer_instance

/-- Squared distance from `p` to the union of the features: the minimum
over the features. -/
def distSqUnion (props : List Poly) (p : Pt) : ℚ :=
  minOf (props.map (fun r => distSqPoly r p))

/-- Half-even integer rounding over the rationals, the semantics of the
Python builtin `round` on a tie-free argument and at ties alike. -/
def roundHalfEvenQ (x : ℚ) : ℤ :=
  if Int.fract x = 1 / 2 then 2 * round (x / 2) else round x

/-- Python `round(x, 2)` over the rationals. -/
def round2Q (x : ℚ) : ℚ :=
  (roundHalfEvenQ (x * 100) : ℚ) / 100

/-- Half-even integer rounding over the reals. -/
noncomputable def roundHalfEven (x : ℝ) : ℤ :=
  if Int.fract x = 1 / 2 then 2 * round (x / 2) else round x

/-- Python `round(x, 2)` over the reals, as applied to the computed
distance on line 122 of src/app.py. -/
noncomputable def round2 (x : ℝ) : ℝ :=
  (roundHalfEven (x * 100) : ℝ) / 100

/-- The per-well result of `calculate_distances` (lines 111-123 of
src/app.py): the containment flag, and the distance to the nearest
boundary edge when outside (0.0 when inside), rounded to two decimals. -/
noncomputable def calcWell (props : List Poly) (p : Pt) : Bool × ℝ :=
  (decide (InsideUnion props p),
   round2 (if InsideUnion props p then 0 else Real.sqrt ((distSqUnion props p : ℚ) : ℝ)))

/-- The whole of `calculate_distances`: one result row per well, in the
order of the input wells. -/
noncomputable def calculate_distances (wells : List Pt) (props : List Poly) :
    List (Bool × ℝ) :=
  wells.map (calcWell props)

/-- The proximity label of lines 243-246 of src/app.py, computed from the
containment flag and the rounded distance. -/
noncomputable def statusOf (inside : Bool) (d : ℝ) : String :=
  if inside then "On Property" else if d < 1000 then "Nearby (< 1000')" else "Far"

/-- A raw well record as fetched from the data source. -/
structure Well where
  name : String
  operator : String
  api : String
  status : String
  lat : ℚ
  lon : ℚ
  deriving DecidableEq, Repr

/-- The geometry point of a well (`points_from_xy(lon, lat)`, line 225). -/
def wellPoint (w : Well) : Pt := ⟨w.lon, w.lat⟩

/-- The status whitelist of line 232 of src/app.py. -/
def activeStatuses : List String := ["ACTIVE", "PRODUCING", "PERMITTED", "DRILLING"]

/-- Uppercasing a status string (`.str.upper()` of line 234), character
by character. -/
def upperAscii (s : String) : String :=
  ⟨s.data.map Char.toUpper⟩

/-- The status filter of line 234 of src/app.py: keep a well exactly when
its status, uppercased as a string, is on the whitelist. -/
def statusFilter (wells : List Well) : List Well :=
  wells.filter (fun w => decide (upperAscii w.status ∈ activeStatuses))

/-- One displayed row of the final report (lines 240-246). -/
structure ReportRow where
  name : String
  onProperty : Bool
  distFt : ℝ
  proximity : String

/-- The report rows built from a well list, one per well in input order
(`final_df` of lines 240-246 keeps the row order of `gdf_wells`). -/
noncomputable def buildReport (props : List Poly) (wells : List Well) :
    List ReportRow :=
  wells.map (fun w =>
    ⟨w.name, (calcWell props (wellPoint w)).1, (calcWell props (wellPoint w)).2,
     statusOf (calcWell props (wellPoint w)).1 (calcWell props (wellPoint w)).2⟩)

/-- The displayed report of `main`: status filtering happens first
(line 234), then the spatial logic over the kept wells (line 237), and the
table is displayed in that order with no sorting and no truncation
(line 251). -/
noncomputable def mainReport (props : List Poly) (wells : List Well) :
    List ReportRow :=
  buildReport props (statusFilter wells)

/-- The state of the boundary upload in `main` (lines 174-187): no file,
a file `gpd.read_file` fails on, or a parsed feature list. -/
inductive Upload
  | absent
  | invalid
  | parsed (features : List Poly)
  deriving DecidableEq

/-- The boundary `main` ends up with (lines 172-187): `gdf_property`
starts as `None` and is set only by a successful parse. -/
def resolveBoundary : Upload → Option (List Poly)
  | Upload.absent => none
  | Upload.invalid => none
  | Upload.parsed fs => some fs

/-- Whether the analysis block runs (line 194: `if gdf_property is not
None`). -/
def analysisRuns (u : Upload) : Bool :=
  (resolveBoundary u).isSome

/-- Follows the words of the spec, for comparison with the code: the
fallback boundary the spec describes, an axis-aligned square of
half-width 0.002 degrees centered on the target point.  No such square
is synthesized anywhere in src/app.py. -/
def specFallbackSquare (lat lon : ℚ) : Poly :=
  [⟨lon - 0.002, lat - 0.002⟩, ⟨lon + 0.002, lat - 0.002⟩,
   ⟨lon + 0.002, lat + 0.002⟩, ⟨lon - 0.002, lat + 0.002⟩]

/-- Follows the words of the spec, for comparison with the code: the
distance engine applied to the first uploaded feature only. -/
noncomputable def calcFirstOnly (props : List Poly) (p : Pt) : Bool × ℝ :=
  calcWell [props.headD []] p

/-- A raw tabular well dataset: its column names and its rows, a row
being an association list from column name to value. -/
structure RawDataset where
  cols : List String
  rows : List (List (String × ℚ))
  deriving DecidableEq

/-- Line 217 of src/app.py: the latitude column is `Latitude` when that
exact name is a column, else `SurfaceLatitude`. -/
def latColumn (cols : List String) : String :=
  if "Latitude" ∈ cols then "Latitude" else "SurfaceLatitude"

/-- Line 218 of src/app.py: the longitude column, resolved the same way. -/
def lonColumn (cols : List String) : String :=
  if "Longitude" ∈ cols then "Longitude" else "SurfaceLongitude"

/-- Reading a cell of a row by column name.  A row of a pandas frame
carries every frame column (a record missing a key becomes NaN at frame
construction and still occupies its row), so for datasets modelling a
frame with the column present the default branch of a missing cell is
never reached. -/
def lookupCol (row : List (String × ℚ)) (c : String) : ℚ :=
  ((row.find? (fun kv => kv.1 = c)).map Prod.snd).getD 0

/-- Line 220-221 of src/app.py: the coordinate error is signalled exactly
when the resolved latitude column is not a column, and its diagnostic is
a fixed message. -/
def coordError (df : RawDataset) : Option String :=
  if latColumn df.cols ∈ df.cols then none
  else some "API returned data without coordinates."

/-- How the coordinate-normalization block of lines 220-227 of src/app.py
can end: the fixed error message is shown and the analysis skipped (the
resolved latitude column is absent, line 221); an uncaught KeyError is
raised (the latitude column resolved but `df_wells[lon_col]` on line 225
indexes an absent longitude column); or the well points are built. -/
inductive NormOutcome where
  | errorShown (msg : String)
  | raised
  | ok (pts : List Pt)
  deriving DecidableEq

/-- The normalizer outcome: when the resolved latitude column is absent,
the fixed error message (lines 220-221); otherwise, when the resolved
longitude column is absent, the uncaught KeyError that
`df_wells[lon_col]` raises on line 225 (the code never checks the
longitude column); otherwise the well points (x = longitude,
y = latitude) built on lines 223-227, one per row: no row is dropped. -/
def normalizeWells (df : RawDataset) : NormOutcome :=
  if latColumn df.cols ∈ df.cols then
    if lonColumn df.cols ∈ df.cols then
      NormOutcome.ok (df.rows.map (fun r => ⟨lookupCol r (lonColumn df.cols),
        lookupCol r (latColumn df.cols)⟩))
    else NormOutcome.raised
  else NormOutcome.errorShown "API returned data without coordinates."

/-- The row count a normalization outcome keeps: the number of well
points on success, nothing on either error path. -/
def normOutcomeRows : NormOutcome → Option ℕ
  | NormOutcome.ok pts => some pts.length
  | NormOutcome.errorShown _ => none
  | NormOutcome.raised => none

/-- A two-column dataset with the given latitude and longitude column
names and the given (latitude, longitude) value pairs. -/
def mkDF (latName lonName : String) (vals : List (ℚ × ℚ)) : RawDataset :=
  ⟨[latName, lonName], vals.map (fun v => [(latName, v.1), (lonName, v.2)])⟩

/-- The boundary square of the worked scenarios of the spec, corners
(-97.522,35.4696), (-97.518,35.4696), (-97.518,35.4656), (-97.522,35.4656). -/
def specSquare : Poly :=
  [⟨-97.522, 35.4696⟩, ⟨-97.518, 35.4696⟩, ⟨-97.518, 35.4656⟩, ⟨-97.522, 35.4656⟩]

/-- A well point strictly inside `specSquare`. -/
def ptInside : Pt := ⟨-97.520, 35.4676⟩

/-- A well point exactly on the northern edge of `specSquare`. -/
def ptOnEdge : Pt := ⟨-97.520, 35.4696⟩

/-- A square boundary of side 1000 in the projected (feet) plane. -/
def sq1000 : Poly := [⟨0, 0⟩, ⟨1000, 0⟩, ⟨1000, 1000⟩, ⟨0, 1000⟩]

/-- A point 0.001 ft east of the eastern edge of `sq1000`. -/
def ptNear : Pt := ⟨1000 + 1 / 1000, 500⟩

/-- First feature: the unit square at the origin. -/
def sqA : Poly := [⟨0, 0⟩, ⟨1, 0⟩, ⟨1, 1⟩, ⟨0, 1⟩]

/-- Second feature: a unit square far east of `sqA`. -/
def sqB : Poly := [⟨10, 0⟩, ⟨11, 0⟩, ⟨11, 1⟩, ⟨10, 1⟩]

/-- A point strictly inside the second feature `sqB`. -/
def ptB : Pt := ⟨10.5, 0.5⟩

/-- A well 2 ft east of `sq1000`. -/
def wellFar : Well := ⟨"FAR WELL", "OP", "1", "ACTIVE", 500, 1002⟩

/-- A well strictly inside `sq1000`. -/
def wellIn : Well := ⟨"IN WELL", "OP", "2", "ACTIVE", 500, 500⟩

lemma round2_zero : round2 0 = 0 := by
  unfold round2 roundHalfEven
  norm_num [Int.fract]

lemma round2_ratCast (q : ℚ) : round2 ((q : ℝ)) = ((round2Q q : ℚ) : ℝ) := by
  unfold round2 round2Q roundHalfEven roundHalfEvenQ
  have hcast : ((q : ℝ)) * 100 = (((q * 100 : ℚ)) : ℝ) := by push_cast; ring
  rw [hcast]
  have hfr : Int.fract (((q * 100 : ℚ)) : ℝ) = ((Int.fract (q * 100) : ℚ) : ℝ) :=
    (Rat.cast_fract _).symm
  by_cases h : Int.fract (q * 100) = (1 / 2 : ℚ)
  · rw [if_pos, if_pos h]
    · have h2 : (((q * 100 : ℚ)) : ℝ) / 2 = (((q * 100 / 2 : ℚ)) : ℝ) := by
        push_cast; ring
      rw [h2, Rat.round_cast]
      push_cast; ring
    · rw [hfr, h]; norm_num
  · rw [if_neg, if_neg h]
    · rw [Rat.round_cast]; push_cast; ring
    · rw [hfr]
      have hhalf : ((1 / 2 : ℚ) : ℝ) = 1 / 2 := by norm_num
      rw [← hhalf]
      intro hh
      exact h (Rat.cast_injective hh)

lemma reported_of_sq (d : ℚ) (hd : 0 ≤ d) :
    round2 (Real.sqrt (((d ^ 2 : ℚ)) : ℝ)) = ((round2Q d : ℚ) : ℝ) := by
  have h1 : (((d ^ 2 : ℚ)) : ℝ) = ((d : ℝ)) ^ 2 := by push_cast; ring
  rw [h1, Real.sqrt_sq (by exact_mod_cast hd), round2_ratCast]

lemma foldl_min_le_init (q : ℚ) (qs : List ℚ) : qs.foldl min q ≤ q := by
  induction qs generalizing q with
  | nil => exact le_refl q
  | cons a t ih => exact le_trans (ih (min q a)) (min_le_left q a)

lemma foldl_min_le_mem {x : ℚ} (qs : List ℚ) (q : ℚ) (hx : x ∈ qs) :
    qs.foldl min q ≤ x := by
  induction qs generalizing q with
  | nil => cases hx
  | cons a t ih =>
    rw [List.foldl_cons]
    rcases List.mem_cons.mp hx with rfl | hx2
    · exact le_trans (foldl_min_le_init _ _) (min_le_right q x)
    · exact ih _ hx2

lemma le_foldl_min {c q : ℚ} {qs : List ℚ} (h0 : c ≤ q) (h : ∀ x ∈ qs, c ≤ x) :
    c ≤ qs.foldl min q := by
  induction qs generalizing q with
  | nil => exact h0
  | cons a t ih =>
    exact ih (le_min h0 (h a (List.mem_cons_self a t)))
      (fun x hx => h x (List.mem_cons_of_mem a hx))

lemma minOf_le {l : List ℚ} {x : ℚ} (hx : x ∈ l) : minOf l ≤ x := by
  cases l with
  | nil => cases hx
  | cons q qs =>
    rcases List.mem_cons.mp hx with rfl | hx2
    · exact foldl_min_le_init _ _
    · exact foldl_min_le_mem _ _ hx2

lemma minOf_nonneg {l : List ℚ} (h : ∀ x ∈ l, 0 ≤ x) : 0 ≤ minOf l := by
  cases l with
  | nil => exact le_refl 0
  | cons q qs =>
    exact le_foldl_min (h q (List.mem_cons_self q qs))
      (fun x hx => h x (List.mem_cons_of_mem q hx))

lemma distSqSeg_nonneg (a b p : Pt) : 0 ≤ distSqSeg a b p := by
  unfold distSqSeg
  split <;> positivity

lemma distSqPoly_nonneg (r : Poly) (p : Pt) : 0 ≤ distSqPoly r p := by
  apply minOf_nonneg
  intro x hx
  rcases List.mem_map.mp hx with ⟨e, _, rfl⟩
  exact distSqSeg_nonneg _ _ _

lemma distSqUnion_nonneg (props : List Poly) (p : Pt) : 0 ≤ distSqUnion props p := by
  apply minOf_nonneg
  intro x hx
  rcases List.mem_map.mp hx with ⟨r, _, rfl⟩
  exact distSqPoly_nonneg _ _

lemma onSeg_distSqSeg (a b p : Pt) (h : OnSeg a b p) : distSqSeg a b p = 0 := by
  obtain ⟨hc, hx1, hx2, hy1, hy2⟩ := h
  unfold distSqSeg
  by_cases hd : (b.x - a.x) ^ 2 + (b.y - a.y) ^ 2 = 0
  · rw [if_pos hd]
    have hbx : b.x = a.x := by
      nlinarith [sq_nonneg (b.x - a.x), sq_nonneg (b.y - a.y)]
    have hby : b.y = a.y := by
      nlinarith [sq_nonneg (b.x - a.x), sq_nonneg (b.y - a.y)]
    rw [hbx] at hx1 hx2
    rw [hby] at hy1 hy2
    simp only [min_self, max_self] at hx1 hx2 hy1 hy2
    have hpx : p.x = a.x := le_antisymm hx2 hx1
    have hpy : p.y = a.y := le_antisymm hy2 hy1
    rw [hpx, hpy]
    ring
  · rw [if_neg hd]
    have hd2pos : 0 < (b.x - a.x) ^ 2 + (b.y - a.y) ^ 2 :=
      lt_of_le_of_ne (by positivity) (Ne.symm hd)
    have hvxdx : 0 ≤ (p.x - a.x) * (b.x - a.x) ∧
        (p.x - a.x) * (b.x - a.x) ≤ (b.x - a.x) ^ 2 := by
      rcases le_total a.x b.x with hab | hab
      · rw [min_eq_left hab] at hx1
        rw [max_eq_right hab] at hx2
        constructor <;> nlinarith
      · rw [min_eq_right hab] at hx1
        rw [max_eq_left hab] at hx2
        constructor <;> nlinarith
    have hvydy : 0 ≤ (p.y - a.y) * (b.y - a.y) ∧
        (p.y - a.y) * (b.y - a.y) ≤ (b.y - a.y) ^ 2 := by
      rcases le_total a.y b.y with hab | hab
      · rw [min_eq_left hab] at hy1
        rw [max_eq_right hab] at hy2
        constructor <;> nlinarith
      · rw [min_eq_right hab] at hy1
        rw [max_eq_left hab] at hy2
        constructor <;> nlinarith
    set t := ((p.x - a.x) * (b.x - a.x) + (p.y - a.y) * (b.y - a.y)) /
      ((b.x - a.x) ^ 2 + (b.y - a.y) ^ 2) with ht
    have ht0 : 0 ≤ t := by
      rw [ht]
      exact div_nonneg (by nlinarith [hvxdx.1, hvydy.1]) hd2pos.le
    have ht1 : t ≤ 1 := by
      rw [ht, div_le_one hd2pos]
      nlinarith [hvxdx.2, hvydy.2]
    have hcl : clamp01 t = t := by
      rw [clamp01, min_eq_right ht1, max_eq_right ht0]
    rw [hcl]
    have h1 : t * (b.x - a.x) = p.x - a.x := by
      rw [ht, div_mul_eq_mul_div, div_eq_iff hd]
      linear_combination (b.y - a.y) * hc
    have h2 : t * (b.y - a.y) = p.y - a.y := by
      rw [ht, div_mul_eq_mul_div, div_eq_iff hd]
      linear_combination (a.x - b.x) * hc
    have e1 : p.x - (a.x + t * (b.x - a.x)) = 0 := by rw [h1]; ring
    have e2 : p.y - (a.y + t * (b.y - a.y)) = 0 := by rw [h2]; ring
    rw [e1, e2]
    ring

lemma onBoundary_distSqPoly (r : Poly) (p : Pt) (h : OnBoundary r p) :
    distSqPoly r p = 0 := by
  obtain ⟨e, he, hseg⟩ := h
  refine le_antisymm ?_ (distSqPoly_nonneg r p)
  have hmem : distSqSeg e.1 e.2 p ∈ (edges r).map (fun e => distSqSeg e.1 e.2 p) :=
    List.mem_map_of_mem _ he
  calc distSqPoly r p ≤ distSqSeg e.1 e.2 p := minOf_le hmem
    _ = 0 := onSeg_distSqSeg _ _ _ hseg

lemma calcWell_inside (props : List Poly) (p : Pt) (h : InsideUnion props p) :
    calcWell props p = (true, 0) := by
  unfold calcWell
  rw [if_pos h, decide_eq_true h, round2_zero]

lemma calcWell_outside (props : List Poly) (p : Pt) (h : ¬ InsideUnion props p)
    (d : ℚ) (hd : 0 ≤ d) (hsq : distSqUnion props p = d ^ 2) :
    calcWell props p = (false, ((round2Q d : ℚ) : ℝ)) := by
  unfold calcWell
  rw [if_neg h, decide_eq_false h, hsq, reported_of_sq d hd]

lemma statusOf_false_ne (d : ℝ) : statusOf false d ≠ "On Property" := by
  unfold statusOf
  by_cases h : d < 1000
  · simp only [Bool.false_eq_true, if_false, if_pos h]
    decide
  · simp only [Bool.false_eq_true, if_false, if_neg h]
    decide

lemma buildReport_names (props : List Poly) (wells : List Well) :
    (buildReport props wells).map ReportRow.name = wells.map Well.name := by
  unfold buildReport
  rw [List.map_map]
  rfl

lemma round2Q_zero : round2Q 0 = 0 := by
  norm_num [round2Q, roundHalfEvenQ, Int.fract]

lemma round2Q_milli : round2Q (1 / 1000) = 0 := by
  norm_num [round2Q, roundHalfEvenQ, Int.fract, round_eq, Int.floor_eq_iff]

lemma round2Q_two : round2Q 2 = 2 := by
  norm_num [round2Q, roundHalfEvenQ, Int.fract, round_eq, Int.floor_eq_iff]

lemma round2Q_nineAndHalf : round2Q (19 / 2) = 19 / 2 := by
  norm_num [round2Q, roundHalfEvenQ, Int.fract, round_eq, Int.floor_eq_iff]

lemma specSquare_inside : InsideUnion [specSquare] ptInside := by
  norm_num [InsideUnion, specSquare, ptInside, ContainsPoint, OnBoundary, OddCrossings,
    crossCount, CrossesRay, OnSeg, edges, Xor',
    List.mem_cons, List.not_mem_nil, Prod.forall, Prod.mk.injEq, or_imp, and_imp,
    forall_and, forall_eq, forall_eq']

lemma specSquare_edge_onBoundary : OnBoundary specSquare ptOnEdge := by
  norm_num [specSquare, ptOnEdge, OnBoundary, OnSeg, edges]

lemma sq1000_near_outside : ¬ InsideUnion [sq1000] ptNear := by
  norm_num [InsideUnion, sq1000, ptNear, ContainsPoint, OnBoundary, OddCrossings,
    crossCount, CrossesRay, OnSeg, edges, Xor',
    List.mem_cons, List.not_mem_nil, Prod.forall, Prod.mk.injEq, or_imp, and_imp,
    forall_and, forall_eq, forall_eq']

lemma sq1000_near_distSq : distSqUnion [sq1000] ptNear = (1 / 1000) ^ 2 := by
  norm_num [distSqUnion, distSqPoly, sq1000, ptNear, distSqSeg, minOf, edges, clamp01,
    min_def, max_def]

lemma sq1000_far_outside : ¬ InsideUnion [sq1000] (wellPoint wellFar) := by
  norm_num [InsideUnion, sq1000, wellPoint, wellFar, ContainsPoint, OnBoundary,
    OddCrossings, crossCount, CrossesRay, OnSeg, edges, Xor',
    List.mem_cons, List.not_mem_nil, Prod.forall, Prod.mk.injEq, or_imp, and_imp,
    forall_and, forall_eq, forall_eq']

lemma sq1000_far_distSq : distSqUnion [sq1000] (wellPoint wellFar) = 2 ^ 2 := by
  norm_num [distSqUnion, distSqPoly, sq1000, wellPoint, wellFar, distSqSeg, minOf,
    edges, clamp01, min_def, max_def]

lemma sq1000_wellIn_inside : InsideUnion [sq1000] (wellPoint wellIn) := by
  norm_num [InsideUnion, sq1000, wellPoint, wellIn, ContainsPoint, OnBoundary,
    OddCrossings, crossCount, CrossesRay, OnSeg, edges, Xor',
    List.mem_cons, List.not_mem_nil, Prod.forall, Prod.mk.injEq, or_imp, and_imp,
    forall_and, forall_eq, forall_eq']

lemma sqB_contains_ptB : ContainsPoint sqB ptB := by
  norm_num [sqB, ptB, ContainsPoint, OnBoundary, OddCrossings, crossCount, CrossesRay,
    OnSeg, edges, Xor',
    List.mem_cons, List.not_mem_nil, Prod.forall, Prod.mk.injEq, or_imp, and_imp,
    forall_and, forall_eq, forall_eq']

lemma sqA_ptB_outside : ¬ InsideUnion [sqA] ptB := by
  norm_num [InsideUnion, sqA, ptB, ContainsPoint, OnBoundary, OddCrossings, crossCount,
    CrossesRay, OnSeg, edges, Xor',
    List.mem_cons, List.not_mem_nil, Prod.forall, Prod.mk.injEq, or_imp, and_imp,
    forall_and, forall_eq, forall_eq']

lemma sqA_ptB_distSq : distSqUnion [sqA] ptB = (19 / 2) ^ 2 := by
  norm_num [distSqUnion, distSqPoly, sqA, ptB, distSqSeg, minOf, edges, clamp01,
    min_def, max_def]

/-- C1: the claim says a well point exactly on the boundary edge is
reported as contained, inside = true with distance 0; the code tests
interior containment only, so the midpoint of the northern edge of the
scenario square is reported with inside = false (its distance is 0). -/
theorem c1_counterexample :
    OnBoundary specSquare ptOnEdge ∧ calcWell [specSquare] ptOnEdge = (false, 0) := by
  refine ⟨specSquare_edge_onBoundary, ?_⟩
  have hni : ¬ InsideUnion [specSquare] ptOnEdge := by
    rintro ⟨r, hr, hc⟩
    rcases List.mem_singleton.mp hr with rfl
    exact hc.1 specSquare_edge_onBoundary
  have h0 : distSqUnion [specSquare] ptOnEdge = 0 :=
    onBoundary_distSqPoly specSquare ptOnEdge specSquare_edge_onBoundary
  unfold calcWell
  rw [if_neg hni, decide_eq_false hni, h0, Rat.cast_zero, Real.sqrt_zero, round2_zero]

/-- C1 (amended): a well point exactly on an edge of a single-feature
boundary reports distance_ft = 0 but inside = false, because the
containment predicate excludes the boundary. -/
theorem c1_amended_edge_zero_not_inside (r : Poly) (p : Pt) (h : OnBoundary r p) :
    calcWell [r] p = (false, 0) := by
  have hni : ¬ InsideUnion [r] p := by
    rintro ⟨s, hs, hc⟩
    rcases List.mem_singleton.mp hs with rfl
    exact hc.1 h
  have h0 : distSqUnion [r] p = 0 := onBoundary_distSqPoly r p h
  unfold calcWell
  rw [if_neg hni, decide_eq_false hni, h0, Rat.cast_zero, Real.sqrt_zero, round2_zero]

/-- C1 (witness): the amended theorem at the scenario square and the
midpoint of its northern edge. -/
theorem c1_witness : calcWell [specSquare] ptOnEdge = (false, 0) :=
  c1_amended_edge_zero_not_inside specSquare ptOnEdge specSquare_edge_onBoundary

/-- C3: the claim says On Property holds exactly when the reported
distance is 0 and that outside wells always report strictly nonzero
distances; the code rounds to two decimals, so a well 0.001 ft outside
reports distance 0.00 and is labelled Nearby, not On Property. -/
theorem c3_counterexample :
    calcWell [sq1000] ptNear = (false, 0) ∧
    statusOf (calcWell [sq1000] ptNear).1 (calcWell [sq1000] ptNear).2 =
      "Nearby (< 1000')" ∧
    ("Nearby (< 1000')" : String) ≠ "On Property" := by
  have hc : calcWell [sq1000] ptNear = (false, ((round2Q (1 / 1000) : ℚ) : ℝ)) :=
    calcWell_outside _ _ sq1000_near_outside (1 / 1000) (by norm_num) sq1000_near_distSq
  have hc0 : calcWell [sq1000] ptNear = (false, 0) := by
    rw [hc, round2Q_milli]; norm_num
  refine ⟨hc0, ?_, by decide⟩
  rw [hc0]
  norm_num [statusOf]

/-- C3 (amended): the On Property label is assigned exactly when the
containment test holds, not when the reported distance equals 0; a well
outside the boundary is labelled Nearby or Far, never On Property, even
when its rounded distance reads 0.00. -/
theorem c3_amended_label_iff_contained (props : List Poly) (p : Pt) :
    statusOf (calcWell props p).1 (calcWell props p).2 = "On Property" ↔
      InsideUnion props p := by
  by_cases h : InsideUnion props p
  · rw [calcWell_inside props p h]
    simp [statusOf, h]
  · have h1 : (calcWell props p).1 = false := by
      unfold calcWell
      simp [decide_eq_false h]
    rw [h1]
    constructor
    · intro hst
      exact absurd hst (statusOf_false_ne _)
    · intro hh
      exact absurd hh h

/-- C4: the claim says a missing or unparsable upload yields a
synthesized fallback square and the analysis proceeds with it; in the
code the boundary stays None and the analysis block never runs. -/
theorem c4_counterexample :
    resolveBoundary Upload.absent = none ∧
    resolveBoundary Upload.absent ≠ some [specFallbackSquare 35.4676 (-97.52)] ∧
    analysisRuns Upload.absent = false := by
  refine ⟨rfl, ?_, rfl⟩
  simp [resolveBoundary]

/-- C4 (amended): an absent or unparsable upload produces no boundary and
the analysis does not run; only a successfully parsed upload yields a
boundary, and no fallback square is ever synthesized. -/
theorem c4_amended_no_fallback :
    (∀ u : Upload, analysisRuns u = true ↔ ∃ fs, u = Upload.parsed fs) ∧
    resolveBoundary Upload.absent = none ∧ resolveBoundary Upload.invalid = none := by
  refine ⟨?_, rfl, rfl⟩
  intro u
  cases u with
  | absent => simp [analysisRuns, resolveBoundary]
  | invalid => simp [analysisRuns, resolveBoundary]
  | parsed fs => simp [analysisRuns, resolveBoundary]

/-- C5: the claim says the results are stable-sorted ascending by
distance before display; the code never sorts: a report whose distances
come out [2, 0] is displayed in exactly that input order, which is not
ascending. -/
theorem c5_counterexample :
    (mainReport [sq1000] [wellFar, wellIn]).map ReportRow.distFt = [2, 0] ∧
    ¬ ((2 : ℝ) ≤ 0) := by
  have hfil : statusFilter [wellFar, wellIn] = [wellFar, wellIn] := by decide
  have hf : calcWell [sq1000] (wellPoint wellFar) = (false, (2 : ℝ)) := by
    have h := calcWell_outside _ _ sq1000_far_outside 2 (by norm_num) sq1000_far_distSq
    rw [h, round2Q_two]
    norm_num
  have hi : calcWell [sq1000] (wellPoint wellIn) = (true, 0) :=
    calcWell_inside _ _ sq1000_wellIn_inside
  constructor
  · unfold mainReport
    rw [hfil]
    unfold buildReport
    simp [hf, hi]
  · norm_num

/-- C5 (amended): no sorting and no truncation happen: the displayed
rows are exactly the status-filtered input wells in their original
order, so rows with equal distances, like all rows, keep input order. -/
theorem c5_amended_input_order (props : List Poly) (wells : List Well) :
    (mainReport props wells).map ReportRow.name = (statusFilter wells).map Well.name ∧
    (buildReport props wells).map ReportRow.name = wells.map Well.name :=
  ⟨buildReport_names props (statusFilter wells), buildReport_names props wells⟩

/-- C6: the claim says only the first feature of a multi-feature upload
is used; line 107 of src/app.py takes the union of all features, so a
well inside the second feature is reported inside at distance 0, while
the first-feature-only reading reports it outside at distance 9.5. -/
theorem c6_counterexample :
    calcWell [sqA, sqB] ptB = (true, 0) ∧
    calcFirstOnly [sqA, sqB] ptB = (false, (9.5 : ℝ)) ∧
    calcWell [sqA, sqB] ptB ≠ calcFirstOnly [sqA, sqB] ptB := by
  have h1 : calcWell [sqA, sqB] ptB = (true, 0) :=
    calcWell_inside _ _ ⟨sqB, by simp, sqB_contains_ptB⟩
  have h2 : calcFirstOnly [sqA, sqB] ptB = (false, (9.5 : ℝ)) := by
    unfold calcFirstOnly
    have hh : ([sqA, sqB].headD []) = sqA := rfl
    rw [hh]
    have h := calcWell_outside [sqA] ptB sqA_ptB_outside (19 / 2) (by norm_num)
      sqA_ptB_distSq
    rw [h, round2Q_nineAndHalf]
    norm_num
  refine ⟨h1, h2, ?_⟩
  rw [h1, h2]
  simp

/-- C6 (amended): the boundary used for containment is the union of all
uploaded features: a well contained in the second feature is reported
inside with distance 0. -/
theorem c6_amended_union_all_features (A B : Poly) (p : Pt)
    (h : ContainsPoint B p) : calcWell [A, B] p = (true, 0) :=
  calcWell_inside _ _ ⟨B, by simp, h⟩

/-- C6 (witness): the amended theorem at the two-feature upload and the
well inside the second feature. -/
theorem c6_witness : calcWell [sqA, sqB] ptB = (true, 0) :=
  c6_amended_union_all_features sqA sqB ptB sqB_contains_ptB

/-- C7: a well strictly inside the boundary, that is one the containment
predicate holds for, is reported with inside = true and distance 0. -/
theorem c7_inside_reports_zero (props : List Poly) (p : Pt)
    (h : InsideUnion props p) : calcWell props p = (true, 0) :=
  calcWell_inside props p h

/-- C7 (witness): the scenario square and its interior well point. -/
theorem c7_witness : calcWell [specSquare] ptInside = (true, 0) :=
  c7_inside_reports_zero [specSquare] ptInside specSquare_inside

/-- C8: the claim says a lowercase latitude/longitude dataset and a
SurfaceLatitude/SurfaceLongitude dataset normalize identically; the code
matches the exact names Latitude/SurfaceLatitude only, so the lowercase
dataset is rejected while the SurfaceLatitude one normalizes. -/
theorem c8_counterexample :
    normalizeWells (mkDF "latitude" "longitude" [(35, -97)]) =
      NormOutcome.errorShown "API returned data without coordinates." ∧
    normalizeWells (mkDF "SurfaceLatitude" "SurfaceLongitude" [(35, -97)]) =
      NormOutcome.ok [⟨-97, 35⟩] ∧
    normalizeWells (mkDF "latitude" "longitude" [(35, -97)]) ≠
      normalizeWells (mkDF "SurfaceLatitude" "SurfaceLongitude" [(35, -97)]) := by
  refine ⟨by decide, by decide, by decide⟩

/-- C8 (amended): only the exact column names are recognized, with
Latitude/Longitude preferred over SurfaceLatitude/SurfaceLongitude: for
identical values those two datasets normalize to identical output, while
case variants such as lowercase latitude/longitude are rejected. -/
theorem c8_amended_exact_names_only (vals : List (ℚ × ℚ)) :
    normalizeWells (mkDF "Latitude" "Longitude" vals) =
      normalizeWells (mkDF "SurfaceLatitude" "SurfaceLongitude" vals) ∧
    normalizeWells (mkDF "Latitude" "Longitude" vals) =
      NormOutcome.ok (vals.map (fun v => ⟨v.2, v.1⟩)) := by
  have h1 : normalizeWells (mkDF "Latitude" "Longitude" vals) =
      NormOutcome.ok (vals.map (fun v => ⟨v.2, v.1⟩)) := by
    simp [normalizeWells, mkDF, latColumn, lonColumn, lookupCol, List.find?,
      List.map_map]
  have h2 : normalizeWells (mkDF "SurfaceLatitude" "SurfaceLongitude" vals) =
      NormOutcome.ok (vals.map (fun v => ⟨v.2, v.1⟩)) := by
    simp [normalizeWells, mkDF, latColumn, lonColumn, lookupCol, List.find?,
      List.map_map]
  exact ⟨h1.trans h2.symm, h1⟩

/-- C9: the claim says the coordinate error fires iff no candidate
latitude or longitude column matches, and that it lists the columns
present; the code checks latitude candidates only, so a dataset with just
a Longitude column still errors, and the diagnostic is one fixed string
that carries no column list. -/
theorem c9_counterexample :
    coordError ⟨["Longitude"], []⟩ = some "API returned data without coordinates." ∧
    coordError ⟨["ColumnA"], []⟩ = coordError ⟨["ColumnB"], []⟩ ∧
    (["ColumnA"] : List String) ≠ ["ColumnB"] := by
  refine ⟨by decide, by decide, by decide⟩

/-- C9 (amended): the error is signalled iff neither Latitude nor
SurfaceLatitude is a column, longitude columns never being checked; the
diagnostic is one fixed message carrying no column list; when a latitude
column resolves but no longitude column does, the block raises an
uncaught KeyError instead of signalling the error; and normalization
succeeds exactly when both columns resolve, and then keeps every row,
dropping none. -/
theorem c9_amended_latitude_only :
    (∀ df : RawDataset, (coordError df).isSome = true ↔
      ("Latitude" ∉ df.cols ∧ "SurfaceLatitude" ∉ df.cols)) ∧
    (∀ df : RawDataset, coordError df = none ∨
      coordError df = some "API returned data without coordinates.") ∧
    (∀ df : RawDataset, ("Latitude" ∈ df.cols ∨ "SurfaceLatitude" ∈ df.cols) →
      ("Longitude" ∉ df.cols ∧ "SurfaceLongitude" ∉ df.cols) →
      normalizeWells df = NormOutcome.raised) ∧
    (∀ df : RawDataset, normOutcomeRows (normalizeWells df) =
      if ("Latitude" ∈ df.cols ∨ "SurfaceLatitude" ∈ df.cols) ∧
          ("Longitude" ∈ df.cols ∨ "SurfaceLongitude" ∈ df.cols) then
        some df.rows.length else none) := by
  refine ⟨?_, ?_, ?_, ?_⟩
  · intro df
    unfold coordError latColumn
    by_cases h1 : ("Latitude" : String) ∈ df.cols
    · simp [h1]
    · by_cases h2 : ("SurfaceLatitude" : String) ∈ df.cols
      · simp [h1, h2]
      · simp [h1, h2]
  · intro df
    unfold coordError
    by_cases h : latColumn df.cols ∈ df.cols
    · exact Or.inl (by rw [if_pos h])
    · exact Or.inr (by rw [if_neg h])
  · intro df hlat hlon
    unfold normalizeWells latColumn lonColumn
    by_cases h1 : ("Latitude" : String) ∈ df.cols
    · simp [h1, hlon.1, hlon.2]
    · rcases hlat with h2 | h2
      · exact absurd h2 h1
      · simp [h1, h2, hlon.1, hlon.2]
  · intro df
    unfold normalizeWells latColumn lonColumn
    by_cases hla : ("Latitude" : String) ∈ df.cols <;>
      by_cases hsla : ("SurfaceLatitude" : String) ∈ df.cols <;>
        by_cases hlo : ("Longitude" : String) ∈ df.cols <;>
          by_cases hslo : ("SurfaceLongitude" : String) ∈ df.cols <;>
            simp [hla, hsla, hlo, hslo, normOutcomeRows]

/-- C10: a fetched well is kept for the distance computation and display
exactly when its uppercased status is one of ACTIVE, PRODUCING,
PERMITTED, DRILLING; every other well is dropped before the spatial
logic runs. -/
theorem c10_status_filter (wells : List Well) (w : Well) :
    (w ∈ statusFilter wells ↔ w ∈ wells ∧ upperAscii w.status ∈ activeStatuses) ∧
    (∀ props : List Poly, mainReport props wells = buildReport props (statusFilter wells)) := by
  constructor
  · simp [statusFilter, List.mem_filter]
  · intro props
    rfl

end WellProximity
